import Mathlib

/-!
Shallow embedding of the core of `yazbaka.py` (Yet Another ZFS Backup
Application) and proofs about its specification claims.

Python strings are modelled as Lean `String`s; the `str.find` /
`x in s` substring tests are modelled by executable helpers on the
underlying character lists; machine-external effects (running `zfs`
subprocesses) are modelled by passing the command output / failure in
as an explicit argument.
-/

namespace Yazbaka

/-- Boolean test that `pre` is a leading segment of `l` (character lists). -/
def leadsList : List Char → List Char → Bool
  | [], _ => true
  | _ :: _, [] => false
  | a :: as, b :: bs => a == b && leadsList as bs

/-- Boolean substring test: does `needle` occur contiguously inside `hay`?
Models Python `hay.find(needle) != -1` (and `needle in hay`). -/
def hasSub (needle : List Char) : List Char → Bool
  | [] => needle.isEmpty
  | c :: t => leadsList needle (c :: t) || hasSub needle t

/-- Index of the first occurrence of `needle` in `hay`, if any. -/
def findSub (needle : List Char) : List Char → Option Nat
  | [] => if needle.isEmpty then some 0 else none
  | c :: t =>
    if leadsList needle (c :: t) then some 0
    else (findSub needle t).map (· + 1)

/-- Python `hay.find(needle)`: first index of occurrence, `-1` when absent. -/
def pyFind (hay needle : String) : Int :=
  match findSub needle.data hay.data with
  | some k => (k : Int)
  | none => -1

/-- Python `needle in hay` / `hay.find(needle) != -1`. -/
def pyContains (hay needle : String) : Bool :=
  hasSub needle.data hay.data

/-! ## ChangeDetector: `Yazbaka.has_changed` (yazbaka.py lines 36-74)

The `zfs get -Hpr written` query output is modelled as a list of records,
one per output line: the first column (dataset or snapshot name) and the
numeric `written` value (third column). -/

/-- One line of `zfs get -Hpr written` output: name column and the
parsed byte count `int(elements[2])`. -/
structure WrittenRecord where
  name : String
  written : Nat
  deriving DecidableEq, Repr

/-- The loop of `has_changed` (lines 52-73), carrying the flag `zero`;
the empty-list case is the final `return not zero` (line 74). -/
def has_changed_loop (source label : String) (true_recursive : Bool) :
    List WrittenRecord → Bool → Bool
  | [], zero => !zero
  | r :: rs, zero =>
    if pyContains r.name (source ++ "/") && !true_recursive then
      has_changed_loop source label true_recursive rs zero
    else if !(pyContains r.name "@") then
      if r.written ≠ 0 then true
      else has_changed_loop source label true_recursive rs true
    else if pyContains r.name ("@" ++ label) then
      has_changed_loop source label true_recursive rs true
    else if r.written ≠ 0 then
      has_changed_loop source label true_recursive rs false
    else
      has_changed_loop source label true_recursive rs zero

/-- `Yazbaka.has_changed`: `zero` starts `True` (line 48);
`true_recursive` is `'R' in self.args.send` (line 49). -/
def has_changed (source label : String) (true_recursive : Bool)
    (records : List WrittenRecord) : Bool :=
  has_changed_loop source label true_recursive records true

/-! ## SnapshotPairFinder: `Yazbaka.get_pairs` (lines 142-183) and
`Yazbaka._get_timestamp` (lines 185-199) -/

/-- Everything after the first '@' of a character list, or `none` when
there is no '@'. -/
def afterAtList : List Char → Option (List Char)
  | [] => none
  | c :: t => if c = '@' then some t else afterAtList t

/-- Models `re.search(r"@.*$", s).group(0)[1:]` (lines 157-158): the text
after the first '@'; `none` models the `AttributeError` raised when the
regex does not match (no '@' in the name). -/
def get_suffix (s : String) : Option String :=
  (afterAtList s.data).map (fun l => ⟨l⟩)

/-- Character class of the timestamp regex `[0-9\-_T]`. -/
def isTsChar (c : Char) : Bool :=
  c.isDigit || c = '-' || c = '_' || c = 'T'

/-- `Yazbaka._get_timestamp`: `re.search(r"[0-9][0-9\-_T]*$", s)` — the
longest trailing run of `[0-9\-_T]` characters, cut down to start at its
first digit; `none` when no such match exists. -/
def _get_timestamp (s : String) : Option String :=
  let suf := (s.data.reverse.takeWhile isTsChar).reverse
  match suf.dropWhile (fun c => !(c.isDigit)) with
  | [] => none
  | m => some ⟨m⟩

/-- Python `<` on strings: lexicographic by character code point, a
strict prefix being smaller. -/
def pyStrLtList : List Char → List Char → Bool
  | [], [] => false
  | [], _ :: _ => true
  | _ :: _, [] => false
  | a :: as, b :: bs => if a == b then pyStrLtList as bs else a.toNat < b.toNat

/-- Python `s < t` on strings. -/
def pyStrLt (s t : String) : Bool :=
  pyStrLtList s.data t.data

/-- The `while i < len(src) and j < len(dest)` loop of `get_pairs`
(lines 154-183), totalised with explicit fuel: every iteration removes at
least one element from `src ++ dest`, so `src.length + dest.length` fuel
always suffices. `none` models the `AttributeError` raised by the suffix
extraction when an examined name has no '@'. -/
def get_pairs_aux : Nat → List String → List String → Option (List String)
  | 0, _, _ => some []
  | _ + 1, [], _ => some []
  | _ + 1, _ :: _, [] => some []
  | fuel + 1, s :: ss, d :: ds =>
    match get_suffix s with
    | none => none
    | some cur_src =>
      match get_suffix d with
      | none => none
      | some cur_dest =>
        if cur_src = cur_dest then
          match get_pairs_aux fuel ss ds with
          | none => none
          | some rest => some (cur_src :: rest)
        else
          match _get_timestamp cur_src, _get_timestamp cur_dest with
          | none, _ => get_pairs_aux fuel ss (d :: ds)
          | some _, none => get_pairs_aux fuel (s :: ss) ds
          | some src_stamp, some dest_stamp =>
            if pyStrLt src_stamp dest_stamp then get_pairs_aux fuel ss (d :: ds)
            else get_pairs_aux fuel (s :: ss) ds

/-- `Yazbaka.get_pairs` (lines 142-183): the two-pointer merge over the
source and destination snapshot-name lists; `some pairs` is the returned
list, `none` the exception escaping from a failed suffix extraction. -/
def get_pairs (src dest : List String) : Option (List String) :=
  get_pairs_aux (src.length + dest.length) src dest

/-! ## Incremental transfer: `Yazbaka.incremental_backup` (lines 108-139) -/

/-- Outcome of `incremental_backup`, with the `zfs send`/`recv` pipe
abstracted to the send endpoints it would stream. -/
inductive IncResult where
  /-- an exception escaped from `get_pairs` or from `src[-1]` -/
  | raised : IncResult
  /-- `NoMatchingSnapshots` raised (line 118 or line 123) -/
  | no_matching : IncResult
  /-- the delta `src_start → src_end` is streamed with the given `-i`/`-I` flag -/
  | send (iflag : String) (src_start src_end : String) : IncResult
  deriving DecidableEq, Repr

/-- `Yazbaka.incremental_backup` decision logic (lines 108-132): `src` and
`dest` are the `list_yaz_snapshots` results for source and destination. -/
def incremental_backup (source : String) (full_incremental : Bool)
    (src dest : List String) : IncResult :=
  match get_pairs src dest with
  | none => .raised
  | some pairs =>
    match pairs.getLast? with
    | none => .no_matching
    | some last_pair =>
      let src_start := source ++ "@" ++ last_pair
      match src.getLast? with
      | none => .raised
      | some src_end =>
        if src_start = src_end then .no_matching
        else .send (if full_incremental then " -I " else " -i ") src_start src_end

/-! ## Full transfer: `Yazbaka.new_backup` (lines 85-104) -/

/-- Outcome of `new_backup`'s snapshot-location step. -/
inductive NewBackupResult where
  /-- `NoMatchingSnapshots` raised (line 93) -/
  | no_matching : NewBackupResult
  /-- a `ZFSError` from the listing query propagating unconverted: the
  behaviour the specification's error taxonomy describes; present only to
  state claims, never produced by the code -/
  | query_error : NewBackupResult
  /-- the whole snapshot `snap` is streamed -/
  | send (snap : String) : NewBackupResult
  deriving DecidableEq, Repr

/-- `Yazbaka.new_backup` decision logic (lines 89-95): `listing` is
`none` when `list_yaz_snapshots` raised `ZFSError` (nonzero exit of the
`zfs list` query, lines 341-344), otherwise the returned name list. The
bare `except:` at line 92 turns every failure inside the `try` block —
including a query `ZFSError` — into `NoMatchingSnapshots`. The regex at
line 91 is `(?<=@).*$`, i.e. the text after the first '@'. -/
def new_backup (source : String) (listing : Option (List String)) : NewBackupResult :=
  match listing with
  | none => .no_matching
  | some snaps =>
    match snaps.getLast? with
    | none => .no_matching
    | some last_snap =>
      match get_suffix last_snap with
      | none => .no_matching
      | some name => .send (source ++ "@" ++ name)

/-! ## Snapshot creation: `Yazbaka.snapshot` (lines 235-263) -/

/-- Outcome of the `zfs snapshot` command handling. -/
inductive SnapResult where
  | ok : SnapResult
  | permission_error : SnapResult
  | zfs_error : SnapResult
  deriving DecidableEq, Repr

/-- Error dispatch of `Yazbaka.snapshot` (lines 258-261): on nonzero exit
it tests `res.stderr.decode().find("permission denied")` for Python
truthiness — the find *index* is truthy iff it is nonzero, so `-1`
(absent) is truthy and `0` (marker at the very start) is falsy. -/
def snapshot_result (returncode : Nat) (stderr : String) : SnapResult :=
  if returncode ≠ 0 then
    if pyFind stderr "permission denied" ≠ 0 then .permission_error
    else .zfs_error
  else .ok

/-! ## Snapshot naming: `Yazbaka.__init__` (lines 30-33) and
`Yazbaka.snapshot` (lines 246-250) -/

/-- Decimal digit character. -/
def digitChar : Nat → Char
  | 0 => '0' | 1 => '1' | 2 => '2' | 3 => '3' | 4 => '4'
  | 5 => '5' | 6 => '6' | 7 => '7' | 8 => '8' | _ => '9'

/-- Base-10 digit characters of `n`, most significant first, accumulated
onto `acc`; fuel-totalised (`n` itself is always enough fuel since the
value shrinks by a factor of ten per step). -/
def natDigitsAux : Nat → Nat → List Char → List Char
  | 0, _, acc => acc
  | fuel + 1, n, acc =>
    if n = 0 then acc
    else natDigitsAux fuel (n / 10) (digitChar (n % 10) :: acc)

/-- Decimal representation of a natural number, as Python `str` prints it. -/
def natDigits (n : Nat) : List Char :=
  if n = 0 then ['0'] else natDigitsAux n n []

/-- Zero-padded decimal of width `w`, as Python `"%0*d"` / `isoformat`
field formatting. -/
def pad (w n : Nat) : List Char :=
  List.replicate (w - (natDigits n).length) '0' ++ natDigits n

/-- The wall-clock value `datetime.now()` is modelled by its civil
calendar fields at minute precision (`timespec='minutes'` discards
seconds and below). -/
structure PyDateTime where
  year : Nat
  month : Nat
  day : Nat
  hour : Nat
  minute : Nat
  deriving DecidableEq, Repr

/-- Python `t.isoformat(timespec='minutes', sep=sep)`:
`YYYY-MM-DD<sep>HH:MM`, every numeric field zero-padded. -/
def isoformat_minutes (sep : Char) (t : PyDateTime) : List Char :=
  pad 4 t.year ++ ['-'] ++ pad 2 t.month ++ ['-'] ++ pad 2 t.day ++
  [sep] ++ pad 2 t.hour ++ [':'] ++ pad 2 t.minute

/-- Line 32: `self.now.isoformat(timespec='minutes', sep="_").replace(":", "")`.
`replace(":", "")` deletes every colon, i.e. filters them out. -/
def yaz_timestamp (t : PyDateTime) : String :=
  ⟨(isoformat_minutes '_' t).filter (fun c => c ≠ ':')⟩

/-- Line 33: `self.snapshot_name = self.args.label + "_" + self.timestamp`. -/
def snapshot_name (label : String) (t : PyDateTime) : String :=
  label ++ "_" ++ yaz_timestamp t

/-- Lines 248/250: the snapshot argument of the `zfs snapshot` command,
`self.args.source + "@" + self.snapshot_name`. -/
def snapshot_full_name (source label : String) (t : PyDateTime) : String :=
  source ++ "@" ++ snapshot_name label t

/-! ## TimeSpecParser: `Yazbaka._get_timedelta` (lines 290-326)

Durations (`datetime.timedelta` values) are modelled as whole minutes:
every duration the function produces is a whole number of minutes. -/

/-- Python `int` on a digit string: fails on the empty string (the
`ValueError` from `int('')` when `^[0-9]*` matched zero digits). -/
def parseNatDigits : List Char → Option Nat
  | [] => none
  | ds => some (ds.foldl (fun acc c => acc * 10 + (c.toNat - 48)) 0)

/-- `Yazbaka._get_timedelta`: leading digits are the count, the remainder
must be one of the recognised unit spellings; `none` models the
`ValueError` raised for an absent numeric part or an unrecognised unit.
Result in minutes. -/
def _get_timedelta (time_str : String) : Option Int :=
  let num_str := time_str.data.takeWhile Char.isDigit
  let spec_str : String := ⟨time_str.data.drop num_str.length⟩
  match parseNatDigits num_str with
  | none => none
  | some num =>
    if spec_str = "m" ∨ spec_str = "minute" ∨ spec_str = "minutes" then
      some (num : Int)
    else if spec_str = "h" ∨ spec_str = "hour" ∨ spec_str = "hours" then
      some ((num : Int) * 60)
    else if spec_str = "d" ∨ spec_str = "day" ∨ spec_str = "days" then
      some ((num : Int) * 60 * 24)
    else if spec_str = "w" ∨ spec_str = "week" ∨ spec_str = "weeks" then
      some ((num : Int) * 60 * 24 * 7)
    else if spec_str = "mon" ∨ spec_str = "month" ∨ spec_str = "months" then
      some ((num : Int) * 31 * 60 * 24)
    else if spec_str = "y" ∨ spec_str = "year" ∨ spec_str = "years" then
      some ((num : Int) * 365 * 60 * 24)
    else none

/-! ## RetentionGate: `Yazbaka.conditional_snapshot` (lines 201-233)

The comparison `self.args.omit > self.now - datetime.fromisoformat(timestamp)`
subtracts two `datetime` values; both sides are whole minutes here
(minute-precision timestamps, minute-valued omit durations), so datetimes
are mapped to an absolute minute count on the proleptic Gregorian
calendar, exactly as Python `datetime` subtraction measures them. -/

/-- Days since 0000-03-01 of a civil date (proleptic Gregorian calendar,
valid for `year ≥ 1`); standard era/year-of-era day count. -/
def days_from_civil (y m d : Nat) : Nat :=
  let y' := if m ≤ 2 then y - 1 else y
  let era := y' / 400
  let yoe := y' % 400
  let mp := if 2 < m then m - 3 else m + 9
  let doy := (153 * mp + 2) / 5 + d - 1
  let doe := yoe * 365 + yoe / 4 - yoe / 100 + doy
  era * 146097 + doe

/-- Absolute minute count of a datetime; differences of this value are
what Python `datetime` subtraction yields (in minutes). -/
def toMinutes (t : PyDateTime) : Int :=
  (days_from_civil t.year t.month t.day : Int) * 1440 +
    (t.hour : Int) * 60 + (t.minute : Int)

/-- Gregorian leap-year test. -/
def isLeap (y : Nat) : Bool :=
  (y % 4 == 0 && y % 100 != 0) || y % 400 == 0

/-- Length of a month, as Python `datetime` validates day fields. -/
def daysInMonth (y mo : Nat) : Nat :=
  if mo = 2 then (if isLeap y then 29 else 28)
  else if mo = 4 ∨ mo = 6 ∨ mo = 9 ∨ mo = 11 then 30
  else 31

/-- Numeric value of two digit characters. -/
def d2 (a b : Char) : Nat := (a.toNat - 48) * 10 + (b.toNat - 48)

/-- Numeric value of four digit characters. -/
def d4 (a b c d : Char) : Nat := d2 a b * 100 + d2 c d

/-- Python `datetime.fromisoformat` restricted to the minute-precision
shape `YYYY-MM-DD<sep>HH:MM` this program feeds it (any single separator
character, as Python 3.11+ accepts); `none` models the `ValueError` on a
malformed string or out-of-range field. -/
def parse_iso_minutes (s : String) : Option PyDateTime :=
  match s.data with
  | [a, b, c, d, '-', e, f, '-', g, h, _, i, j, ':', k, l] =>
    if ([a, b, c, d, e, f, g, h, i, j, k, l].all Char.isDigit) then
      let y := d4 a b c d
      let mo := d2 e f
      let dy := d2 g h
      let hr := d2 i j
      let mi := d2 k l
      if 1 ≤ y ∧ 1 ≤ mo ∧ mo ≤ 12 ∧ 1 ≤ dy ∧ dy ≤ daysInMonth y mo ∧
          hr ≤ 23 ∧ mi ≤ 59 then
        some ⟨y, mo, dy, hr, mi⟩
      else none
    else none
  | _ => none

/-- Line 224: `re.search(r"[0-9][0-9\-_]*$", last_snap).group(0)` — the
longest trailing run of `[0-9\-_]` characters cut down to its first
digit (note: unlike `_get_timestamp`, no 'T' in the class); `none`
models the `AttributeError` when nothing matches. -/
def extract_omit_ts (s : String) : Option String :=
  let suf := (s.data.reverse.takeWhile (fun c => c.isDigit || c = '-' || c = '_')).reverse
  match suf.dropWhile (fun c => !(c.isDigit)) with
  | [] => none
  | m => some ⟨m⟩

/-- Line 225: `timestamp[:-2] + ":" + timestamp[-2:]`. -/
def reinsert_colon (s : String) : String :=
  let n := s.data.length
  ⟨s.data.take (n - 2) ++ [':'] ++ s.data.drop (n - 2)⟩

/-- The command-line switches `conditional_snapshot` consults. `omit` is
the already-parsed `-o` duration in minutes (`none` when the option is
absent); `send` is the validated `zfs send` flag string (used for the
`'R' in self.args.send` recursion test inside `has_changed`). -/
structure GateArgs where
  transfer_only : Bool
  no_omit_unchanged : Bool
  /-- `args.omit` (the word itself is a Lean keyword, hence the suffix) -/
  omit_td : Option Int
  source : String
  label : String
  send : String
  deriving Repr

/-- Outcome of `conditional_snapshot`. -/
inductive GateResult where
  /-- one of the omit branches returned `False` without snapshotting -/
  | skip : GateResult
  /-- the final `return self.snapshot()` is reached: a snapshot is created -/
  | proceed : GateResult
  /-- an exception escaped from the timestamp extraction or parse -/
  | raised : GateResult
  deriving DecidableEq, Repr

/-- `Yazbaka.conditional_snapshot` (lines 201-233): `records` is the
`zfs get` output consumed by `has_changed`, `snaps` the
`list_yaz_snapshots` result, `now` the value of `self.now`. Python's
`if self.args.omit:` tests timedelta truthiness, so a configured
zero duration behaves like an absent one. -/
def conditional_snapshot (a : GateArgs) (now : PyDateTime)
    (records : List WrittenRecord) (snaps : List String) : GateResult :=
  if a.transfer_only then .skip
  else if !(has_changed a.source a.label (pyContains a.send "R") records) &&
      !a.no_omit_unchanged then .skip
  else
    match a.omit_td with
    | none => .proceed
    | some om =>
      if om ≠ 0 then
        match snaps.getLast? with
        | none => .proceed
        | some last_snap =>
          match extract_omit_ts last_snap with
          | none => .raised
          | some ts =>
            match parse_iso_minutes (reinsert_colon ts) with
            | none => .raised
            | some t =>
              if om > toMinutes now - toMinutes t then .skip
              else .proceed
      else .proceed

/-! ## Theorems about the claims -/

/-- Helper: over a stream whose every record names the configured label's
boundary marker, the `has_changed` loop starting with `zero = true` ends
with "unchanged". -/
theorem has_changed_loop_all_label (source label : String) (tr : Bool) :
    ∀ recs : List WrittenRecord,
      (∀ x ∈ recs,
        pyContains x.name "@" = true ∧ pyContains x.name ("@" ++ label) = true) →
      has_changed_loop source label tr recs true = false := by
  intro recs
  induction recs with
  | nil => intro _; rfl
  | cons r rs ih =>
    intro hall
    have hr := hall r (List.mem_cons_self r rs)
    have hrs := fun x hx => hall x (List.mem_cons_of_mem r hx)
    by_cases hskip : (pyContains r.name (source ++ "/") && !tr) = true
    · simp only [has_changed_loop, hskip, if_true]
      exact ih hrs
    · simp only [has_changed_loop, hskip, if_false, hr.1, hr.2, Bool.not_true,
        Bool.false_eq_true, if_true]
      exact ih hrs

/-- C1: in `has_changed`, a processed snapshot-boundary record whose name
carries the configured label's marker resets the carry flag `zero` to
`true`; a processed boundary record without that marker and with nonzero
byte count continues with `zero = false` (no short-circuit); the final
verdict after all records is "changed" iff `zero` is false; and a stream
of only same-label boundary records yields "unchanged". -/
theorem claim_C1_change_detector_boundaries (source label : String) (tr : Bool)
    (r : WrittenRecord) (rs recs : List WrittenRecord) (zero : Bool) :
    ((pyContains r.name (source ++ "/") && !tr) = false →
      pyContains r.name "@" = true →
      pyContains r.name ("@" ++ label) = true →
      has_changed_loop source label tr (r :: rs) zero =
        has_changed_loop source label tr rs true)
    ∧ ((pyContains r.name (source ++ "/") && !tr) = false →
      pyContains r.name "@" = true →
      pyContains r.name ("@" ++ label) = false →
      r.written ≠ 0 →
      has_changed_loop source label tr (r :: rs) zero =
        has_changed_loop source label tr rs false)
    ∧ (has_changed_loop source label tr [] zero = !zero)
    ∧ ((∀ x ∈ recs,
        pyContains x.name "@" = true ∧ pyContains x.name ("@" ++ label) = true) →
      has_changed source label tr recs = false) := by
  refine ⟨?_, ?_, rfl, ?_⟩
  · intro h1 h2 h3
    simp only [has_changed_loop, h1, h2, h3, Bool.not_true, Bool.false_eq_true,
      if_false, if_true]
  · intro h1 h2 h3 h4
    simp only [has_changed_loop, h1, h2, h3, h4, Bool.not_true, Bool.false_eq_true,
      if_false, if_true, ne_eq, not_false_iff]
  · exact has_changed_loop_all_label source label tr recs

/-- C1 witness: the theorem applied at concrete records. -/
theorem claim_C1_change_detector_boundaries_witness :
    has_changed_loop "pool/ds" "yazbak" false [⟨"pool/ds@yazbak_x", 9⟩] false =
      has_changed_loop "pool/ds" "yazbak" false [] true
    ∧ has_changed_loop "pool/ds" "yazbak" false [⟨"pool/ds@other_x", 9⟩] true =
      has_changed_loop "pool/ds" "yazbak" false [] false
    ∧ has_changed "pool/ds" "yazbak" false
        [⟨"pool/ds@yazbak_1", 3⟩, ⟨"pool/ds@yazbak_2", 4⟩] = false := by
  refine ⟨?_, ?_, ?_⟩
  · exact (claim_C1_change_detector_boundaries "pool/ds" "yazbak" false
      ⟨"pool/ds@yazbak_x", 9⟩ [] [] false).1 (by decide) (by decide) (by decide)
  · exact (claim_C1_change_detector_boundaries "pool/ds" "yazbak" false
      ⟨"pool/ds@other_x", 9⟩ [] [] true).2.1 (by decide) (by decide) (by decide)
      (by decide)
  · exact (claim_C1_change_detector_boundaries "pool/ds" "yazbak" false
      ⟨"pool/ds@other_x", 9⟩ []
      [⟨"pool/ds@yazbak_1", 3⟩, ⟨"pool/ds@yazbak_2", 4⟩] false).2.2.2 (by decide)

/-- C2 counterexample: the claim says a zero-byte non-boundary record
leaves the carry flag `zero` unchanged, so that earlier different-label
evidence is not erased. In the code (line 64) such a record sets
`zero = True`: continuing from `zero = false` differs from leaving it,
and a stream of a nonzero different-label boundary followed by a
zero-byte live record is reported "unchanged" (the evidence is erased). -/
theorem claim_C2_counterexample :
    has_changed_loop "pool/ds" "yazbak" false [⟨"pool/ds", 0⟩] false ≠
      has_changed_loop "pool/ds" "yazbak" false [] false
    ∧ has_changed "pool/ds" "yazbak" false
        [⟨"pool/ds@other_1200", 5⟩, ⟨"pool/ds", 0⟩] = false := by
  decide

/-- C2 amended: a processed non-boundary record with nonzero byte count
short-circuits to "changed"; a processed non-boundary record with a zero
byte count RESETS the carry flag `zero` to true (rather than leaving it
unchanged), so a different-label boundary's earlier nonzero evidence IS
erased by a later zero-byte live record. -/
theorem claim_C2_live_records_amended (source label : String) (tr : Bool)
    (r : WrittenRecord) (rs : List WrittenRecord) (zero : Bool) :
    ((pyContains r.name (source ++ "/") && !tr) = false →
      pyContains r.name "@" = false →
      r.written ≠ 0 →
      has_changed_loop source label tr (r :: rs) zero = true)
    ∧ ((pyContains r.name (source ++ "/") && !tr) = false →
      pyContains r.name "@" = false →
      r.written = 0 →
      has_changed_loop source label tr (r :: rs) zero =
        has_changed_loop source label tr rs true) := by
  constructor
  · intro h1 h2 h3
    simp only [has_changed_loop, h1, h2, h3, Bool.not_false, Bool.false_eq_true,
      if_false, if_true, ne_eq, not_false_iff]
  · intro h1 h2 h3
    simp only [has_changed_loop, h1, h2, h3, Bool.not_false, Bool.false_eq_true,
      if_false, if_true, ne_eq, not_true]

/-- C2 amended witness: the theorem applied at concrete records. -/
theorem claim_C2_live_records_amended_witness :
    has_changed_loop "pool/ds" "yazbak" false [⟨"pool/ds", 7⟩] false = true
    ∧ has_changed_loop "pool/ds" "yazbak" false [⟨"pool/ds", 0⟩] false =
        has_changed_loop "pool/ds" "yazbak" false [] true := by
  constructor
  · exact (claim_C2_live_records_amended "pool/ds" "yazbak" false
      ⟨"pool/ds", 7⟩ [] false).1 (by decide) (by decide) (by decide)
  · exact (claim_C2_live_records_amended "pool/ds" "yazbak" false
      ⟨"pool/ds", 0⟩ [] false).2 (by decide) (by decide) (by decide)

/-- Helper: whatever list `get_pairs_aux` returns is a subsequence of the
extracted suffixes of each input list. -/
theorem get_pairs_aux_sublist (fuel : Nat) :
    ∀ (src dest ps : List String),
      get_pairs_aux fuel src dest = some ps →
      ps.Sublist (src.filterMap get_suffix) ∧
        ps.Sublist (dest.filterMap get_suffix) := by
  induction fuel with
  | zero =>
    intro src dest ps h
    simp only [get_pairs_aux] at h
    cases h
    exact ⟨List.nil_sublist _, List.nil_sublist _⟩
  | succ n ih =>
    intro src dest ps h
    rcases src with _ | ⟨s, ss⟩
    · simp only [get_pairs_aux] at h
      cases h
      exact ⟨List.nil_sublist _, List.nil_sublist _⟩
    rcases dest with _ | ⟨d, ds⟩
    · simp only [get_pairs_aux] at h
      cases h
      exact ⟨List.nil_sublist _, List.nil_sublist _⟩
    cases hs : get_suffix s with
    | none =>
      simp only [get_pairs_aux, hs] at h
      exact Option.noConfusion h
    | some cs =>
      cases hd : get_suffix d with
      | none =>
        simp only [get_pairs_aux, hs, hd] at h
        exact Option.noConfusion h
      | some cd =>
        simp only [get_pairs_aux, hs, hd] at h
        by_cases he : cs = cd
        · rw [if_pos he] at h
          cases hr : get_pairs_aux n ss ds with
          | none => rw [hr] at h; simp at h
          | some rest =>
            rw [hr] at h
            have hps : ps = cs :: rest := by
              injection h with h
              exact h.symm
            subst hps
            obtain ⟨h1, h2⟩ := ih ss ds rest hr
            constructor
            · rw [List.filterMap_cons_some hs]
              exact List.Sublist.cons₂ cs h1
            · rw [List.filterMap_cons_some hd, ← he]
              exact List.Sublist.cons₂ cs h2
        · rw [if_neg he] at h
          cases ht1 : _get_timestamp cs with
          | none =>
            simp only [ht1] at h
            obtain ⟨h1, h2⟩ := ih ss (d :: ds) ps h
            rw [List.filterMap_cons_some hs]
            exact ⟨List.Sublist.cons cs h1, h2⟩
          | some ts =>
            cases ht2 : _get_timestamp cd with
            | none =>
              simp only [ht1, ht2] at h
              obtain ⟨h1, h2⟩ := ih (s :: ss) ds ps h
              rw [List.filterMap_cons_some hd]
              exact ⟨h1, List.Sublist.cons cd h2⟩
            | some td =>
              simp only [ht1, ht2] at h
              by_cases hlt : pyStrLt ts td = true
              · rw [if_pos hlt] at h
                obtain ⟨h1, h2⟩ := ih ss (d :: ds) ps h
                rw [List.filterMap_cons_some hs]
                exact ⟨List.Sublist.cons cs h1, h2⟩
              · rw [if_neg hlt] at h
                obtain ⟨h1, h2⟩ := ih (s :: ss) ds ps h
                rw [List.filterMap_cons_some hd]
                exact ⟨h1, List.Sublist.cons cd h2⟩

/-- Helper: on two identical lists whose elements all contain '@',
`get_pairs_aux` (with enough fuel) returns every suffix. -/
theorem get_pairs_aux_self (fuel : Nat) :
    ∀ l : List String, l.length + l.length ≤ fuel →
      (∀ x ∈ l, (get_suffix x).isSome = true) →
      get_pairs_aux fuel l l = some (l.filterMap get_suffix) := by
  induction fuel with
  | zero =>
    intro l hlen _
    have hl : l = [] := by
      cases l with
      | nil => rfl
      | cons a as => simp at hlen
    subst hl
    rfl
  | succ n ih =>
    intro l hlen hall
    cases l with
    | nil => rfl
    | cons x xs =>
      obtain ⟨cs, hcs⟩ :=
        Option.isSome_iff_exists.mp (hall x (List.mem_cons_self x xs))
      have hxs := fun y hy => hall y (List.mem_cons_of_mem x hy)
      have hlen' : xs.length + xs.length ≤ n := by
        simp only [List.length_cons] at hlen
        omega
      simp only [get_pairs_aux, hcs, ih xs hlen' hxs,
        List.filterMap_cons_some hcs, if_true, eq_self_iff_true]

/-- Helper: when every element of both lists contains '@', the suffix
extractions all succeed and `get_pairs_aux` returns normally. -/
theorem get_pairs_aux_total (fuel : Nat) :
    ∀ src dest : List String,
      (∀ x ∈ src, (get_suffix x).isSome = true) →
      (∀ x ∈ dest, (get_suffix x).isSome = true) →
      (get_pairs_aux fuel src dest).isSome = true := by
  induction fuel with
  | zero => intro src dest _ _; rfl
  | succ n ih =>
    intro src dest hs hd
    rcases src with _ | ⟨s, ss⟩
    · rfl
    rcases dest with _ | ⟨d, ds⟩
    · rfl
    obtain ⟨cs, hcs⟩ := Option.isSome_iff_exists.mp (hs s (List.mem_cons_self s ss))
    obtain ⟨cd, hcd⟩ := Option.isSome_iff_exists.mp (hd d (List.mem_cons_self d ds))
    have hss := fun x hx => hs x (List.mem_cons_of_mem s hx)
    have hds := fun x hx => hd x (List.mem_cons_of_mem d hx)
    simp only [get_pairs_aux, hcs, hcd]
    by_cases he : cs = cd
    · rw [if_pos he]
      have htot := ih ss ds hss hds
      cases hr : get_pairs_aux n ss ds with
      | none => rw [hr] at htot; simp at htot
      | some rest => simp
    · rw [if_neg he]
      cases ht1 : _get_timestamp cs with
      | none => simp only [ht1]; exact ih ss (d :: ds) hss hd
      | some ts =>
        cases ht2 : _get_timestamp cd with
        | none => simp only [ht1, ht2]; exact ih (s :: ss) ds hs hds
        | some td =>
          simp only [ht1, ht2]
          by_cases hlt : pyStrLt ts td = true
          · rw [if_pos hlt]
            exact ih ss (d :: ds) hss hd
          · rw [if_neg hlt]
            exact ih (s :: ss) ds hs hds

/-- C3: whatever `get_pairs` returns is a subsequence (in encounter
order) of the after-'@' suffixes of each input list, hence of their
intersection; identical inputs whose examined elements all contain '@'
return the full suffix sequence; an empty input on either side returns
an empty result. -/
theorem claim_C3_pair_finder (src dest ps l : List String) :
    (get_pairs src dest = some ps →
      ps.Sublist (src.filterMap get_suffix) ∧
        ps.Sublist (dest.filterMap get_suffix) ∧
        ∀ x ∈ ps, x ∈ src.filterMap get_suffix ∧ x ∈ dest.filterMap get_suffix)
    ∧ ((∀ x ∈ l, (get_suffix x).isSome = true) →
      get_pairs l l = some (l.filterMap get_suffix))
    ∧ get_pairs [] l = some []
    ∧ get_pairs l [] = some [] := by
  refine ⟨?_, ?_, ?_, ?_⟩
  · intro h
    obtain ⟨h1, h2⟩ := get_pairs_aux_sublist _ src dest ps h
    exact ⟨h1, h2, fun x hx => ⟨h1.subset hx, h2.subset hx⟩⟩
  · intro hall
    exact get_pairs_aux_self _ l (Nat.le_refl _) hall
  · cases l with
    | nil => rfl
    | cons a as => rfl
  · cases l with
    | nil => rfl
    | cons a as => rfl

/-- C3 witness: the theorem applied at concrete snapshot-name lists. -/
theorem claim_C3_pair_finder_witness :
    (["A"] : List String).Sublist
      ((["p/d@A", "p/d@C"] : List String).filterMap get_suffix)
    ∧ get_pairs ["x/y@m_1", "x/y@m_2"] ["x/y@m_1", "x/y@m_2"] =
        some ((["x/y@m_1", "x/y@m_2"] : List String).filterMap get_suffix) := by
  constructor
  · exact ((claim_C3_pair_finder ["p/d@A", "p/d@C"] ["p/d@A", "p/d@B"] ["A"] []).1
      (by decide)).1
  · exact (claim_C3_pair_finder [] [] []
      ["x/y@m_1", "x/y@m_2"]).2.1 (by decide)

/-- C10: `get_pairs` returns normally when every element of both input
lists contains the '@' boundary marker; an examined element without '@'
makes the suffix extraction raise (modelled `none`) instead of the
element being skipped — on the source side regardless of the destination
head, and on the destination side once the source head's extraction
succeeded. -/
theorem claim_C10_pair_finder_totality (src dest ss ds : List String)
    (s d cs : String) :
    ((∀ x ∈ src, (get_suffix x).isSome = true) →
      (∀ x ∈ dest, (get_suffix x).isSome = true) →
      (get_pairs src dest).isSome = true)
    ∧ (get_suffix s = none → get_pairs (s :: ss) (d :: ds) = none)
    ∧ (get_suffix s = some cs → get_suffix d = none →
      get_pairs (s :: ss) (d :: ds) = none) := by
  refine ⟨?_, ?_, ?_⟩
  · intro hs hd
    exact get_pairs_aux_total _ src dest hs hd
  · intro hnone
    simp only [get_pairs, List.length_cons, Nat.add_succ, get_pairs_aux, hnone]
  · intro hsome hnone
    simp only [get_pairs, List.length_cons, Nat.add_succ, get_pairs_aux, hsome,
      hnone]

/-- C10 witness: the theorem applied at concrete lists, including one
whose middle element lacks '@'. -/
theorem claim_C10_pair_finder_totality_witness :
    (get_pairs ["a/b@u", "a/b@v"] ["a/b@u"]).isSome = true
    ∧ get_pairs ["noatsign", "a/b@u"] ["a/b@u"] = none
    ∧ get_pairs ["a/b@u", "a/b@v"] ["noatsign"] = none := by
  refine ⟨?_, ?_, ?_⟩
  · exact (claim_C10_pair_finder_totality ["a/b@u", "a/b@v"] ["a/b@u"] [] []
      "" "" "").1 (by decide) (by decide)
  · exact (claim_C10_pair_finder_totality [] [] ["a/b@u"] []
      "noatsign" "a/b@u" "").2.1 (by decide)
  · exact (claim_C10_pair_finder_totality [] [] ["a/b@v"] []
      "a/b@u" "noatsign" "u").2.2 (by decide) (by decide)

/-- C4: the decision logic of `incremental_backup` — empty pair list
fails with `NoMatchingSnapshots`; the most recent matched point equalling
the most recent source snapshot fails with `NoMatchingSnapshots`;
otherwise a single delta from the last matched point to the last source
snapshot is streamed — including the concrete A,B,C scenario. (Separate
finding: the surrounding lines 134-135 are mis-indented, so the Python
module itself fails to parse; the theorem is about the decision logic
those lines sit in.) -/
theorem claim_C4_incremental_decision (source : String) (fi : Bool)
    (src dest ps : List String) (p e : String) :
    (get_pairs src dest = some [] →
      incremental_backup source fi src dest = .no_matching)
    ∧ (get_pairs src dest = some ps → ps.getLast? = some p →
      src.getLast? = some e → source ++ "@" ++ p = e →
      incremental_backup source fi src dest = .no_matching)
    ∧ (get_pairs src dest = some ps → ps.getLast? = some p →
      src.getLast? = some e → source ++ "@" ++ p ≠ e →
      incremental_backup source fi src dest =
        .send (if fi then " -I " else " -i ") (source ++ "@" ++ p) e)
    ∧ incremental_backup "p/d" false ["p/d@A", "p/d@B", "p/d@C"]
        ["p/d@A", "p/d@B"] = .send " -i " "p/d@B" "p/d@C"
    ∧ incremental_backup "p/d" false ["p/d@A", "p/d@B", "p/d@C"]
        ["p/d@A", "p/d@B", "p/d@C"] = .no_matching := by
  refine ⟨?_, ?_, ?_, by decide, by decide⟩
  · intro h
    simp only [incremental_backup, h, List.getLast?_nil]
  · intro h hp he heq
    simp only [incremental_backup, h, hp, he, if_pos heq]
  · intro h hp he hne
    simp only [incremental_backup, h, hp, he, if_neg hne]

/-- C4 witness: the general clauses applied at concrete lists. -/
theorem claim_C4_incremental_decision_witness :
    incremental_backup "t/u" true ["t/u@X", "t/u@Y"] ["t/u@X"] =
      .send " -I " "t/u@X" "t/u@Y"
    ∧ incremental_backup "t/u" true ["t/u@X"] ["t/u@X"] = .no_matching
    ∧ incremental_backup "t/u" true ["t/u@X"] ["t/u@Z"] = .no_matching := by
  refine ⟨?_, ?_, ?_⟩
  · exact (claim_C4_incremental_decision "t/u" true ["t/u@X", "t/u@Y"] ["t/u@X"]
      ["X"] "X" "t/u@Y").2.2.1 (by decide) (by decide) (by decide) (by decide)
  · exact (claim_C4_incremental_decision "t/u" true ["t/u@X"] ["t/u@X"]
      ["X"] "X" "t/u@X").2.1 (by decide) (by decide) (by decide) (by decide)
  · exact (claim_C4_incremental_decision "t/u" true ["t/u@X"] ["t/u@Z"]
      [] "" "").1 (by decide)

/-- C6: evaluation of the `snapshot` error dispatch at the divergent
inputs. With the permission-denied marker at the very start of the
diagnostic text, `find` returns `0`, which is falsy in Python, so the
generic `ZFSError` is raised although the marker is present; with the
marker entirely absent, `find` returns `-1`, which is truthy, so
`PermissionError` is raised although the marker is absent. The claimed
boolean presence test holds in neither case. -/
theorem claim_C6_permission_marker_divergence :
    snapshot_result 1 "permission denied" = .zfs_error
    ∧ pyContains "permission denied" "permission denied" = true
    ∧ snapshot_result 1 "cannot create snapshot: dataset is busy" = .permission_error
    ∧ pyContains "cannot create snapshot: dataset is busy" "permission denied" = false
    ∧ snapshot_result 1 "cannot mount: permission denied" = .permission_error
    ∧ snapshot_result 0 "" = .ok := by
  decide

/-- C7 counterexample: a failed listing query (the `ZFSError` raised at
lines 343-344, modelled by `none`) is caught by the bare `except:` at
line 92 and converted into `NoMatchingSnapshots` rather than propagating
as the query error. -/
theorem claim_C7_counterexample :
    new_backup "p/d" none = .no_matching
    ∧ new_backup "p/d" none ≠ .query_error := by
  decide

/-- C7 amended: during a full transfer, `NoMatchingSnapshots` is raised
iff locating the latest label-matching snapshot fails for any reason —
no matching snapshot exists, the name has no '@', or the read-only
listing query itself fails (the bare handler converts the query's
`ZFSError` into `NoMatchingSnapshots` instead of propagating it);
otherwise the entire most recent snapshot is streamed. -/
theorem claim_C7_full_backup_amended (source : String)
    (snaps : List String) (last suffixN : String) :
    new_backup source none = .no_matching
    ∧ new_backup source (some []) = .no_matching
    ∧ (snaps.getLast? = some last → get_suffix last = none →
      new_backup source (some snaps) = .no_matching)
    ∧ (snaps.getLast? = some last → get_suffix last = some suffixN →
      new_backup source (some snaps) = .send (source ++ "@" ++ suffixN)) := by
  refine ⟨rfl, rfl, ?_, ?_⟩
  · intro hl hn
    simp only [new_backup, hl, hn]
  · intro hl hn
    simp only [new_backup, hl, hn]

/-- C7 amended witness: the theorem applied at a concrete listing. -/
theorem claim_C7_full_backup_amended_witness :
    new_backup "p/d" (some ["p/d@yaz_1", "p/d@yaz_2"]) = .send "p/d@yaz_2"
    ∧ new_backup "p/d" (some ["strange"]) = .no_matching := by
  constructor
  · exact (claim_C7_full_backup_amended "p/d" ["p/d@yaz_1", "p/d@yaz_2"]
      "p/d@yaz_2" "yaz_2").2.2.2 (by decide) (by decide)
  · exact (claim_C7_full_backup_amended "p/d" ["strange"]
      "strange" "").2.2.1 (by decide) (by decide)

/-- C9: `_get_timedelta` maps "3h" to 3 hours, "5days" to 5 days and
"2mon" to 62 days (durations in minutes; months are exactly 31 days,
years exactly 365 days), and fails for every input without leading
digits and for every unrecognised unit spelling. -/
theorem claim_C9_timespec (s spec : String) :
    _get_timedelta "3h" = some (3 * 60)
    ∧ _get_timedelta "5days" = some (5 * 60 * 24)
    ∧ _get_timedelta "2mon" = some (62 * 60 * 24)
    ∧ _get_timedelta "x" = none
    ∧ _get_timedelta "h" = none
    ∧ (s.data.takeWhile Char.isDigit = [] → _get_timedelta s = none)
    ∧ (spec = (⟨s.data.drop (s.data.takeWhile Char.isDigit).length⟩ : String) →
      spec ∉ (["m", "minute", "minutes", "h", "hour", "hours", "d", "day",
        "days", "w", "week", "weeks", "mon", "month", "months", "y", "year",
        "years"] : List String) →
      _get_timedelta s = none) := by
  refine ⟨by decide, by decide, by decide, by decide, by decide, ?_, ?_⟩
  · intro h
    simp only [_get_timedelta, h, parseNatDigits]
  · intro hspec hmem
    simp only [List.mem_cons, List.not_mem_nil, or_false, not_or] at hmem
    subst hspec
    obtain ⟨h1, h2, h3, h4, h5, h6, h7, h8, h9, h10, h11, h12, h13, h14, h15,
      h16, h17, h18⟩ := hmem
    simp only [_get_timedelta]
    cases parseNatDigits (s.data.takeWhile Char.isDigit) with
    | none => rfl
    | some num =>
      simp only [h1, h2, h3, h4, h5, h6, h7, h8, h9, h10, h11, h12, h13, h14,
        h15, h16, h17, h18, or_self, if_false, false_or]

/-- C9 witness: the failure clauses applied at concrete inputs. -/
theorem claim_C9_timespec_witness :
    _get_timedelta "zz" = none ∧ _get_timedelta "3q" = none := by
  constructor
  · exact (claim_C9_timespec "zz" "").2.2.2.2.2.1 (by decide)
  · exact (claim_C9_timespec "3q" "q").2.2.2.2.2.2 (by decide) (by decide)

/-- C5: the retention gate decides in order — transfer-only always
skips; an "unchanged" verdict with no-omit-unchanged unset skips; a
configured omit duration with an existing labelled snapshot whose
elapsed time is below the duration skips; otherwise the snapshot is
created. -/
theorem claim_C5_retention_gate (a : GateArgs) (now t : PyDateTime)
    (recs : List WrittenRecord) (snaps : List String)
    (om : Int) (last ts : String) :
    (a.transfer_only = true →
      conditional_snapshot a now recs snaps = .skip)
    ∧ (a.transfer_only = false →
      has_changed a.source a.label (pyContains a.send "R") recs = false →
      a.no_omit_unchanged = false →
      conditional_snapshot a now recs snaps = .skip)
    ∧ (a.transfer_only = false →
      (has_changed a.source a.label (pyContains a.send "R") recs = true ∨
        a.no_omit_unchanged = true) →
      a.omit_td = some om → om ≠ 0 →
      snaps.getLast? = some last →
      extract_omit_ts last = some ts →
      parse_iso_minutes (reinsert_colon ts) = some t →
      toMinutes now - toMinutes t < om →
      conditional_snapshot a now recs snaps = .skip)
    ∧ (a.transfer_only = false →
      (has_changed a.source a.label (pyContains a.send "R") recs = true ∨
        a.no_omit_unchanged = true) →
      a.omit_td = none →
      conditional_snapshot a now recs snaps = .proceed)
    ∧ (a.transfer_only = false →
      (has_changed a.source a.label (pyContains a.send "R") recs = true ∨
        a.no_omit_unchanged = true) →
      a.omit_td = some om → om ≠ 0 →
      snaps.getLast? = none →
      conditional_snapshot a now recs snaps = .proceed)
    ∧ (a.transfer_only = false →
      (has_changed a.source a.label (pyContains a.send "R") recs = true ∨
        a.no_omit_unchanged = true) →
      a.omit_td = some om → om ≠ 0 →
      snaps.getLast? = some last →
      extract_omit_ts last = some ts →
      parse_iso_minutes (reinsert_colon ts) = some t →
      om ≤ toMinutes now - toMinutes t →
      conditional_snapshot a now recs snaps = .proceed) := by
  have hgate : ∀ hc : has_changed a.source a.label (pyContains a.send "R") recs =
      true ∨ a.no_omit_unchanged = true,
      (!(has_changed a.source a.label (pyContains a.send "R") recs) &&
        !a.no_omit_unchanged) = false := by
    intro hc
    rcases hc with hc | hc <;> simp [hc]
  refine ⟨?_, ?_, ?_, ?_, ?_, ?_⟩
  · intro h1
    simp only [conditional_snapshot, h1, if_true]
  · intro h1 h2 h3
    simp only [conditional_snapshot, h1, h2, h3, Bool.not_false, Bool.and_self,
      Bool.false_eq_true, if_false, if_true]
  · intro h1 hc h2 h3 h4 h5 h6 h7
    simp only [conditional_snapshot, h1, hgate hc, h2, h3, h4, h5, h6,
      Bool.false_eq_true, if_false, ne_eq, not_false_iff, if_true, gt_iff_lt,
      if_pos h7]
  · intro h1 hc h2
    simp only [conditional_snapshot, h1, hgate hc, h2, Bool.false_eq_true,
      if_false]
  · intro h1 hc h2 h3 h4
    simp only [conditional_snapshot, h1, hgate hc, h2, h3, h4,
      Bool.false_eq_true, if_false, ne_eq, not_false_iff, if_true]
  · intro h1 hc h2 h3 h4 h5 h6 h7
    have h7' : ¬(toMinutes now - toMinutes t < om) := not_lt.mpr h7
    simp only [conditional_snapshot, h1, hgate hc, h2, h3, h4, h5, h6,
      Bool.false_eq_true, if_false, ne_eq, not_false_iff, if_true, gt_iff_lt,
      if_neg h7']

/-- C5 witness: the theorem applied at the claim's concrete scenario —
omit of 60 minutes, one written byte on the live dataset, and a last
matching snapshot 30 (respectively 90) minutes old. -/
theorem claim_C5_retention_gate_witness :
    conditional_snapshot ⟨false, false, some 60, "pool/ds", "yazbak", ""⟩
      ⟨2024, 5, 6, 12, 0⟩ [⟨"pool/ds", 1⟩]
      ["pool/ds@yazbak_2024-05-06_1130"] = .skip
    ∧ conditional_snapshot ⟨false, false, some 60, "pool/ds", "yazbak", ""⟩
      ⟨2024, 5, 6, 12, 0⟩ [⟨"pool/ds", 1⟩]
      ["pool/ds@yazbak_2024-05-06_1030"] = .proceed
    ∧ conditional_snapshot ⟨true, false, none, "pool/ds", "yazbak", ""⟩
      ⟨2024, 5, 6, 12, 0⟩ [] [] = .skip
    ∧ conditional_snapshot ⟨false, false, none, "pool/ds", "yazbak", ""⟩
      ⟨2024, 5, 6, 12, 0⟩ [⟨"pool/ds", 0⟩] [] = .skip := by
  refine ⟨?_, ?_, ?_, ?_⟩
  · exact (claim_C5_retention_gate ⟨false, false, some 60, "pool/ds", "yazbak", ""⟩
      ⟨2024, 5, 6, 12, 0⟩ ⟨2024, 5, 6, 11, 30⟩ [⟨"pool/ds", 1⟩]
      ["pool/ds@yazbak_2024-05-06_1130"] 60 "pool/ds@yazbak_2024-05-06_1130"
      "2024-05-06_1130").2.2.1 (by decide) (Or.inl (by decide)) (by decide)
      (by decide) (by decide) (by decide) (by decide) (by decide)
  · exact (claim_C5_retention_gate ⟨false, false, some 60, "pool/ds", "yazbak", ""⟩
      ⟨2024, 5, 6, 12, 0⟩ ⟨2024, 5, 6, 10, 30⟩ [⟨"pool/ds", 1⟩]
      ["pool/ds@yazbak_2024-05-06_1030"] 60 "pool/ds@yazbak_2024-05-06_1030"
      "2024-05-06_1030").2.2.2.2.2 (by decide) (Or.inl (by decide)) (by decide)
      (by decide) (by decide) (by decide) (by decide) (by decide)
  · exact (claim_C5_retention_gate ⟨true, false, none, "pool/ds", "yazbak", ""⟩
      ⟨2024, 5, 6, 12, 0⟩ ⟨2024, 5, 6, 12, 0⟩ [] [] 0 "" "").1 (by decide)
  · exact (claim_C5_retention_gate ⟨false, false, none, "pool/ds", "yazbak", ""⟩
      ⟨2024, 5, 6, 12, 0⟩ ⟨2024, 5, 6, 12, 0⟩ [⟨"pool/ds", 0⟩] [] 0 "" "").2.1
      (by decide) (by decide) (by decide)

/-- Helper: decimal digit characters are never a colon. -/
theorem digitChar_ne_colon (n : Nat) : digitChar n ≠ ':' := by
  unfold digitChar
  split <;> decide

/-- Helper: `natDigitsAux` only adds digit characters to the accumulator. -/
theorem natDigitsAux_ne_colon (fuel : Nat) :
    ∀ (n : Nat) (acc : List Char), (∀ c ∈ acc, c ≠ ':') →
      ∀ c ∈ natDigitsAux fuel n acc, c ≠ ':' := by
  induction fuel with
  | zero => intro n acc hacc; exact hacc
  | succ m ih =>
    intro n acc hacc
    by_cases hn : n = 0
    · simp only [natDigitsAux, hn, if_true]
      exact hacc
    · simp only [natDigitsAux, if_neg hn]
      refine ih (n / 10) _ ?_
      intro x hx
      rcases List.mem_cons.mp hx with h | h
      · rw [h]; exact digitChar_ne_colon _
      · exact hacc x h

/-- Helper: printed numbers contain no colon. -/
theorem natDigits_ne_colon (n : Nat) : ∀ c ∈ natDigits n, c ≠ ':' := by
  unfold natDigits
  by_cases hn : n = 0
  · simp only [hn, if_true]
    intro c hc
    rcases List.mem_singleton.mp hc with h
    rw [h]; decide
  · rw [if_neg hn]
    refine natDigitsAux_ne_colon n n [] ?_
    intro c hc
    cases hc

/-- Helper: padded numbers contain no colon. -/
theorem pad_ne_colon (w n : Nat) : ∀ c ∈ pad w n, c ≠ ':' := by
  intro c hc
  rcases List.mem_append.mp hc with h | h
  · rw [List.eq_of_mem_replicate h]; decide
  · exact natDigits_ne_colon n c h

/-- Helper: filtering colons out of a colon-free list is the identity. -/
theorem filter_ne_colon_eq_self (l : List Char) (h : ∀ c ∈ l, c ≠ ':') :
    l.filter (fun c => c ≠ ':') = l := by
  refine List.filter_eq_self.mpr ?_
  intro a ha
  simpa using h a ha

/-- C8 counterexample: at the concrete time 2024-05-06 07:08 the snapshot
argument is `pool/ds@yazbak_2024-05-06_0708` — the separator between
date and time is '_' (not 'T'), and the colon between hours and minutes
is deleted outright (not replaced by '-'), so the claimed
`<YYYY-MM-DDTHH-MM>` shape does not hold. -/
theorem claim_C8_counterexample :
    snapshot_full_name "pool/ds" "yazbak" ⟨2024, 5, 6, 7, 8⟩ =
      "pool/ds@yazbak_2024-05-06_0708"
    ∧ snapshot_full_name "pool/ds" "yazbak" ⟨2024, 5, 6, 7, 8⟩ ≠
      "pool/ds@yazbak_2024-05-06T07-08"
    ∧ 'T' ∉ (yaz_timestamp ⟨2024, 5, 6, 7, 8⟩).data := by
  decide

/-- C8 amended: every snapshot the tool creates is named
`<dataset>@<label>_<YYYY-MM-DD_HHMM>` — an underscore between date and
time, hours and minutes zero-padded and juxtaposed with no separator
(the colon of `isoformat` is deleted), minute precision, and the
timestamp part contains no colon. -/
theorem claim_C8_naming_amended (source label : String) (t : PyDateTime) :
    snapshot_full_name source label t =
      source ++ "@" ++ (label ++ "_" ++ yaz_timestamp t)
    ∧ (yaz_timestamp t).data =
        pad 4 t.year ++ ['-'] ++ pad 2 t.month ++ ['-'] ++ pad 2 t.day ++
        ['_'] ++ pad 2 t.hour ++ pad 2 t.minute
    ∧ ':' ∉ (yaz_timestamp t).data := by
  have hdata : (yaz_timestamp t).data =
      (isoformat_minutes '_' t).filter (fun c => c ≠ ':') := rfl
  refine ⟨rfl, ?_, ?_⟩
  · rw [hdata]
    simp only [isoformat_minutes, List.filter_append,
      filter_ne_colon_eq_self _ (pad_ne_colon 4 t.year),
      filter_ne_colon_eq_self _ (pad_ne_colon 2 t.month),
      filter_ne_colon_eq_self _ (pad_ne_colon 2 t.day),
      filter_ne_colon_eq_self _ (pad_ne_colon 2 t.hour),
      filter_ne_colon_eq_self _ (pad_ne_colon 2 t.minute)]
    simp [List.append_assoc]
  · rw [hdata]
    intro hc
    have hmem := List.mem_filter.mp hc
    simp at hmem

end Yazbaka
